import Mathlib

/-!
Verification of the gfx2 frame-graph core against its specification.

The development shallowly embeds the Rust sources:
* `src/renderer/backend/gl/sync.rs` (GPU sync timeline),
* `src/frame/graphics.rs` (graphics task builder),
* `api-extra/src/blackboard.rs` (named resource blackboard),
together with the frame-graph primitives (`FrameGraph.add_dependency`,
`Resources`, `RenderPass`, reference types) whose defining module is not
in the inspected sources; those are modelled from the specification and
marked `Modelled from the spec:` in their doc comments.

Machine integers (`u64`, `u32` masks) are embedded as `Nat`: none of the
verified properties involve wrap-around, and all mask operations are
bitwise or/and, which agree with the unbounded interpretation.
External GL calls (`ClientWaitSync`) are embedded as an explicit oracle
argument giving the driver's response to each wait.
-/

namespace Gfx2

/-! ## Vulkan-style constants (pipeline stages, access masks, usage bits)

Numeric values follow the Vulkan headers used by the source. Masks are
`Nat` bit sets; `m₁ ||| m₂` is mask union and `f &&& m = f` is the
"mask `m` includes flag `f`" test. -/

def PIPELINE_STAGE_TOP_OF_PIPE_BIT : Nat := 0x1
def PIPELINE_STAGE_VERTEX_SHADER_BIT : Nat := 0x8
def PIPELINE_STAGE_EARLY_FRAGMENT_TESTS_BIT : Nat := 0x100
def PIPELINE_STAGE_COLOR_ATTACHMENT_OUTPUT_BIT : Nat := 0x400

def ACCESS_INPUT_ATTACHMENT_READ_BIT : Nat := 0x10
def ACCESS_SHADER_READ_BIT : Nat := 0x20
def ACCESS_COLOR_ATTACHMENT_READ_BIT : Nat := 0x80
def ACCESS_COLOR_ATTACHMENT_WRITE_BIT : Nat := 0x100
def ACCESS_DEPTH_STENCIL_ATTACHMENT_READ_BIT : Nat := 0x200
def ACCESS_DEPTH_STENCIL_ATTACHMENT_WRITE_BIT : Nat := 0x400

def IMAGE_USAGE_SAMPLED_BIT : Nat := 0x4
def IMAGE_USAGE_COLOR_ATTACHMENT_BIT : Nat := 0x10
def IMAGE_USAGE_DEPTH_STENCIL_ATTACHMENT_BIT : Nat := 0x20
def IMAGE_USAGE_INPUT_ATTACHMENT_BIT : Nat := 0x80

/-- Mask `mask` includes flag `flag` (all bits of `flag` are set). -/
def maskIncludes (mask flag : Nat) : Prop := flag &&& mask = flag

instance (mask flag : Nat) : Decidable (maskIncludes mask flag) := by
  unfold maskIncludes; infer_instance

/-! ## GPU sync timeline — embedding of `src/renderer/backend/gl/sync.rs` -/

/-- Result of a single `gl::ClientWaitSync` call, as inspected by
`Timeline::client_sync` (sync.rs lines 117-127). -/
inductive WaitResult where
  | conditionSatisfied
  | alreadySignaled
  | waitFailed
  | timeoutExpired
deriving DecidableEq

/-- `sync.rs` line 85: `const FENCE_CLIENT_WAIT_TIMEOUT: u64 = 1_000_000_000;`
(one second in nanoseconds). -/
def FENCE_CLIENT_WAIT_TIMEOUT : Nat := 1000000000

/-- `sync.rs` lines 87-91: the `Timeout` enum. -/
inductive Timeout where
  | Infinite
  | Nanoseconds (ns : Nat)
deriving DecidableEq

/-- The timeout in nanoseconds actually handed to `gl::ClientWaitSync` by
`client_sync` (sync.rs lines 113-116): `Infinite` is mapped to the finite
constant `FENCE_CLIENT_WAIT_TIMEOUT`. -/
def effectiveWaitTimeout : Timeout → Nat
  | .Infinite => FENCE_CLIENT_WAIT_TIMEOUT
  | .Nanoseconds ns => ns

/-- `sync.rs` lines 73-76: a pending sync point. The GL fence handle is
opaque to the verified logic; only the target value is modelled. -/
structure SyncPoint where
  value : Nat
deriving DecidableEq

/-- `sync.rs` lines 80-83: the timeline state. -/
structure Timeline where
  sync_points : List SyncPoint
  current_value : Nat
deriving DecidableEq

/-- `Timeline::new` (sync.rs lines 94-99). -/
def Timeline.new (init_value : Nat) : Timeline :=
  { sync_points := [], current_value := init_value }

/-- `Timeline::signal` (sync.rs lines 101-104): enqueue a sync point at
the back. The fence creation is an external GL call and not modelled. -/
def Timeline.signal (t : Timeline) (value : Nat) : Timeline :=
  { t with sync_points := t.sync_points ++ [{ value }] }

/-- Outcome of `Timeline::client_sync`: a returned boolean with the
post-state, or a Rust `panic!` with its message. -/
inductive SyncResult where
  | ret (b : Bool) (t : Timeline)
  | panicked (msg : String)
deriving DecidableEq

/-- A driver oracle: the `WaitResult` that `gl::ClientWaitSync` reports
for the `i`-th wait issued by one `client_sync` call, given the timeout
in nanoseconds passed to it. Every timeout passed by the code is finite,
so any oracle (including one reporting `timeoutExpired`) is a possible
GL behaviour. -/
def WaitOracle : Type := Nat → Nat → WaitResult

/-- The `while self.current_value < value` loop of `Timeline::client_sync`
(sync.rs lines 110-137), recursing on the pending sync point queue:
* queue empty: `panic!("deadlocked timeline")`;
* wait satisfied / already signaled: set `current_value` to the front
  point's value, pop it, continue;
* wait failed: `panic!("fence wait failed")`;
* wait timed out: return `false` (front point not popped). -/
def clientSyncGo (value : Nat) (effTimeout : Nat) (oracle : WaitOracle) :
    List SyncPoint → Nat → Nat → SyncResult
  | points, current, i =>
    if current < value then
      match points with
      | [] => .panicked "deadlocked timeline"
      | p :: rest =>
        match oracle i effTimeout with
        | .conditionSatisfied => clientSyncGo value effTimeout oracle rest p.value (i + 1)
        | .alreadySignaled => clientSyncGo value effTimeout oracle rest p.value (i + 1)
        | .waitFailed => .panicked "fence wait failed"
        | .timeoutExpired => .ret false { sync_points := p :: rest, current_value := current }
    else
      .ret true { sync_points := points, current_value := current }

/-- `Timeline::client_sync` (sync.rs lines 109-139). -/
def Timeline.client_sync (t : Timeline) (value : Nat) (timeout : Timeout)
    (oracle : WaitOracle) : SyncResult :=
  clientSyncGo value (effectiveWaitTimeout timeout) oracle t.sync_points t.current_value 0

/-- The queue invariant stated by the spec ("values are strictly
increasing in queue order", pending values not below `current_value`). -/
def Timeline.WF (t : Timeline) : Prop :=
  List.Pairwise (· < ·) (t.sync_points.map SyncPoint.value) ∧
    ∀ p ∈ t.sync_points, t.current_value ≤ p.value

instance (t : Timeline) : Decidable t.WF := by
  unfold Timeline.WF; infer_instance

/-- One observable timeline operation: a `signal` that maintains the
queue invariant, or a `client_sync` call that returns (does not panic). -/
inductive TimelineStep : Timeline → Timeline → Prop where
  | signal {t : Timeline} {v : Nat}
      (hq : ∀ p ∈ t.sync_points, p.value < v)
      (hc : t.current_value ≤ v) :
      TimelineStep t (t.signal v)
  | sync {t : Timeline} {v : Nat} {timeout : Timeout} {oracle : WaitOracle}
      {b : Bool} {t' : Timeline}
      (h : t.client_sync v timeout oracle = .ret b t') :
      TimelineStep t t'

/-! ### Timeline lemmas -/

theorem clientSyncGo_ret_true {value effT : Nat} {oracle : WaitOracle} :
    ∀ {points : List SyncPoint} {current i : Nat} {t' : Timeline},
      clientSyncGo value effT oracle points current i = .ret true t' →
      value ≤ t'.current_value := by
  intro points
  induction points with
  | nil =>
    intro current i t' h
    rw [clientSyncGo] at h
    by_cases hc : current < value
    · simp [hc] at h
    · rw [if_neg hc] at h
      simp only [SyncResult.ret.injEq, true_and] at h
      subst h
      exact Nat.le_of_not_lt hc
  | cons p rest ih =>
    intro current i t' h
    rw [clientSyncGo] at h
    by_cases hc : current < value
    · rw [if_pos hc] at h
      cases hw : oracle i effT <;> rw [hw] at h
      · exact ih h
      · exact ih h
      · exact absurd h (by simp)
      · exact absurd h (by simp)
    · rw [if_neg hc] at h
      simp only [SyncResult.ret.injEq, true_and] at h
      subst h
      exact Nat.le_of_not_lt hc

theorem clientSyncGo_processes_front {value effT : Nat} {oracle : WaitOracle} :
    ∀ {points : List SyncPoint} {current i : Nat} {b : Bool} {t' : Timeline},
      clientSyncGo value effT oracle points current i = .ret b t' →
      ∃ k, t'.sync_points = points.drop k ∧
        ((k = 0 ∧ t'.current_value = current) ∨
          (0 < k ∧ ∃ p, points[k - 1]? = some p ∧ t'.current_value = p.value)) := by
  intro points
  induction points with
  | nil =>
    intro current i b t' h
    rw [clientSyncGo] at h
    by_cases hc : current < value
    · simp [hc] at h
    · rw [if_neg hc] at h
      simp only [SyncResult.ret.injEq] at h
      obtain ⟨-, h⟩ := h
      subst h
      exact ⟨0, by simp, Or.inl ⟨rfl, rfl⟩⟩
  | cons p rest ih =>
    intro current i b t' h
    rw [clientSyncGo] at h
    by_cases hc : current < value
    · rw [if_pos hc] at h
      cases hw : oracle i effT <;> rw [hw] at h
      · obtain ⟨k, hdrop, hcur⟩ := ih h
        refine ⟨k + 1, by simpa using hdrop, Or.inr ⟨Nat.succ_pos k, ?_⟩⟩
        rcases hcur with ⟨hk0, hv⟩ | ⟨hk, q, hq, hv⟩
        · subst hk0
          exact ⟨p, by simp, hv⟩
        · refine ⟨q, ?_, hv⟩
          have hk1 : k - 1 + 1 = k := Nat.succ_pred_eq_of_pos hk
          simp only [Nat.add_sub_cancel]
          rw [← hk1, List.getElem?_cons_succ]
          exact hq
      · obtain ⟨k, hdrop, hcur⟩ := ih h
        refine ⟨k + 1, by simpa using hdrop, Or.inr ⟨Nat.succ_pos k, ?_⟩⟩
        rcases hcur with ⟨hk0, hv⟩ | ⟨hk, q, hq, hv⟩
        · subst hk0
          exact ⟨p, by simp, hv⟩
        · refine ⟨q, ?_, hv⟩
          have hk1 : k - 1 + 1 = k := Nat.succ_pred_eq_of_pos hk
          simp only [Nat.add_sub_cancel]
          rw [← hk1, List.getElem?_cons_succ]
          exact hq
      · exact absurd h (by simp)
      · simp only [SyncResult.ret.injEq] at h
        obtain ⟨-, h⟩ := h
        subst h
        exact ⟨0, by simp, Or.inl ⟨rfl, rfl⟩⟩
    · rw [if_neg hc] at h
      simp only [SyncResult.ret.injEq] at h
      obtain ⟨-, h⟩ := h
      subst h
      exact ⟨0, by simp, Or.inl ⟨rfl, rfl⟩⟩

theorem clientSyncGo_wf {value effT : Nat} {oracle : WaitOracle} :
    ∀ {points : List SyncPoint} {current i : Nat} {b : Bool} {t' : Timeline},
      List.Pairwise (· < ·) (points.map SyncPoint.value) →
      (∀ p ∈ points, current ≤ p.value) →
      clientSyncGo value effT oracle points current i = .ret b t' →
      current ≤ t'.current_value ∧ t'.WF := by
  intro points
  induction points with
  | nil =>
    intro current i b t' _ _ h
    rw [clientSyncGo] at h
    by_cases hc : current < value
    · simp [hc] at h
    · rw [if_neg hc] at h
      simp only [SyncResult.ret.injEq] at h
      obtain ⟨-, h⟩ := h
      subst h
      exact ⟨le_refl _, by simp [Timeline.WF]⟩
  | cons p rest ih =>
    intro current i b t' hpw hge h
    rw [clientSyncGo] at h
    by_cases hc : current < value
    · rw [if_pos hc] at h
      have hpw' : List.Pairwise (· < ·) (rest.map SyncPoint.value) :=
        (List.pairwise_cons.mp (by simpa using hpw)).2
      have hrest : ∀ q ∈ rest, p.value ≤ q.value := by
        intro q hq
        have := (List.pairwise_cons.mp (by simpa using hpw)).1 q.value
          (List.mem_map_of_mem SyncPoint.value hq)
        omega
      cases hw : oracle i effT <;> rw [hw] at h
      · have := ih hpw' hrest h
        have hple : current ≤ p.value := hge p (by simp)
        exact ⟨le_trans hple this.1, this.2⟩
      · have := ih hpw' hrest h
        have hple : current ≤ p.value := hge p (by simp)
        exact ⟨le_trans hple this.1, this.2⟩
      · exact absurd h (by simp)
      · simp only [SyncResult.ret.injEq] at h
        obtain ⟨-, h⟩ := h
        subst h
        exact ⟨le_refl _, hpw, hge⟩
    · rw [if_neg hc] at h
      simp only [SyncResult.ret.injEq] at h
      obtain ⟨-, h⟩ := h
      subst h
      exact ⟨le_refl _, hpw, hge⟩

theorem timelineStep_mono {t t' : Timeline} (hwf : t.WF) (h : TimelineStep t t') :
    t.current_value ≤ t'.current_value ∧ t'.WF := by
  cases h with
  | signal hq hc =>
    refine ⟨le_refl _, ?_, ?_⟩
    · simp only [Timeline.signal, List.map_append]
      rw [List.pairwise_append]
      refine ⟨hwf.1, by simp, ?_⟩
      intro a ha b hb
      simp only [List.map_cons, List.map_nil, List.mem_singleton] at hb
      obtain ⟨q, hq', rfl⟩ := List.mem_map.mp ha
      subst hb
      exact hq q hq'
    · intro p hp
      simp only [Timeline.signal, List.mem_append, List.mem_singleton] at hp
      rcases hp with hp | rfl
      · exact hwf.2 p hp
      · exact hc
  | sync h =>
    exact clientSyncGo_wf hwf.1 hwf.2 h

theorem clientSyncGo_no_timeout {value effT : Nat} {oracle : WaitOracle}
    (hor : ∀ i ns, oracle i ns ≠ .timeoutExpired) :
    ∀ {points : List SyncPoint} {current i : Nat} {b : Bool} {t' : Timeline},
      clientSyncGo value effT oracle points current i = .ret b t' → b = true := by
  intro points
  induction points with
  | nil =>
    intro current i b t' h
    rw [clientSyncGo] at h
    by_cases hc : current < value
    · simp [hc] at h
    · rw [if_neg hc] at h
      simp only [SyncResult.ret.injEq] at h
      exact h.1.symm
  | cons p rest ih =>
    intro current i b t' h
    rw [clientSyncGo] at h
    by_cases hc : current < value
    · rw [if_pos hc] at h
      cases hw : oracle i effT <;> rw [hw] at h
      · exact ih h
      · exact ih h
      · exact absurd h (by simp)
      · exact absurd hw (hor i effT)
    · rw [if_neg hc] at h
      simp only [SyncResult.ret.injEq] at h
      exact h.1.symm

/-! ### Claim theorems for the timeline (C3, C4, C5, C8) -/

/-- Claim C3: for every target value `v` and every timeline state, if
`client_sync(v, timeout)` returns `true` then the timeline's
`current_value` is `≥ v` afterwards. -/
theorem client_sync_true_reaches_value (t : Timeline) (v : Nat)
    (timeout : Timeout) (oracle : WaitOracle) (t' : Timeline)
    (h : t.client_sync v timeout oracle = .ret true t') :
    v ≤ t'.current_value :=
  clientSyncGo_ret_true h

/-- Witness for C3 at a concrete timeline. -/
theorem client_sync_true_reaches_value_witness :
    (5 : Nat) ≤ (Timeline.mk [] 7).current_value :=
  client_sync_true_reaches_value (Timeline.mk [SyncPoint.mk 7] 0) 5 .Infinite
    (fun _ _ => .conditionSatisfied) (Timeline.mk [] 7) (by decide)

/-- Claim C4: calling `client_sync(v, timeout)` with an empty pending
queue and `current_value < v` panics with "deadlocked timeline"; it never
returns `true` or `false`. -/
theorem client_sync_empty_queue_deadlocks (t : Timeline) (v : Nat)
    (timeout : Timeout) (oracle : WaitOracle)
    (hq : t.sync_points = []) (hv : t.current_value < v) :
    t.client_sync v timeout oracle = .panicked "deadlocked timeline" := by
  unfold Timeline.client_sync
  rw [hq, clientSyncGo, if_pos hv]

/-- Witness for C4 at a concrete timeline. -/
theorem client_sync_empty_queue_deadlocks_witness :
    (Timeline.mk [] 0).client_sync 1 .Infinite (fun _ _ => .conditionSatisfied) =
      .panicked "deadlocked timeline" :=
  client_sync_empty_queue_deadlocks (Timeline.mk [] 0) 1 .Infinite
    (fun _ _ => .conditionSatisfied) rfl (by decide)

/-- Counterexample to claim C5 as stated: `client_sync(v, Infinite)` CAN
return `false`. `Timeout::Infinite` is mapped to the finite
`FENCE_CLIENT_WAIT_TIMEOUT` (one second) for each individual
`gl::ClientWaitSync` (sync.rs lines 113-116), so the driver may report a
timeout for that bounded wait, and `client_sync` then returns `false`. -/
theorem client_sync_infinite_false_cex :
    (Timeline.mk [SyncPoint.mk 5] 0).client_sync 5 .Infinite
        (fun _ _ => .timeoutExpired) =
      .ret false (Timeline.mk [SyncPoint.mk 5] 0) ∧
    effectiveWaitTimeout .Infinite = 1000000000 := by
  constructor
  · decide
  · rfl

/-- Claim C5 as amended: with `Timeout::Infinite` every per-SyncPoint
wait is issued with the finite bound `FENCE_CLIENT_WAIT_TIMEOUT`, so a
wait may time out and `client_sync` then returns `false`; only under the
assumption that no individual driver wait reports a timeout does
`client_sync(v, Infinite)` never return `false`. -/
theorem client_sync_infinite_amended (t : Timeline) (v : Nat)
    (oracle : WaitOracle) (b : Bool) (t' : Timeline)
    (hor : ∀ i ns, oracle i ns ≠ .timeoutExpired)
    (h : t.client_sync v .Infinite oracle = .ret b t') :
    b = true ∧ effectiveWaitTimeout .Infinite = FENCE_CLIENT_WAIT_TIMEOUT :=
  ⟨clientSyncGo_no_timeout hor h, rfl⟩

/-- Witness for the amended C5 at a concrete timeline. -/
theorem client_sync_infinite_amended_witness :
    true = true ∧ effectiveWaitTimeout .Infinite = FENCE_CLIENT_WAIT_TIMEOUT :=
  client_sync_infinite_amended (Timeline.mk [SyncPoint.mk 7] 0) 5
    (fun _ _ => .conditionSatisfied) true (Timeline.mk [] 7)
    (fun _ _ h => WaitResult.noConfusion h) (by decide)

/-- Counterexample to claim C8 as stated: over arbitrary operation
sequences `current_value` is NOT non-decreasing. `Timeline::signal`
never validates the signalled value, so signalling a value below
`current_value` and then syncing makes `current_value` drop (here from
5 to 2, in a `client_sync` call that returns normally). -/
theorem timeline_value_decreases_cex :
    (((Timeline.new 5).signal 2).signal 99).client_sync 6 (.Nanoseconds 100)
        (fun i _ => if i = 0 then .conditionSatisfied else .timeoutExpired) =
      .ret false (Timeline.mk [SyncPoint.mk 99] 2) ∧
    (Timeline.mk [SyncPoint.mk 99] 2).current_value <
      (((Timeline.new 5).signal 2).signal 99).current_value := by
  constructor
  · decide
  · decide

/-- Claim C8 as amended: provided each `signal` maintains the queue
invariant stated by the spec (signalled values strictly above all
pending values and not below `current_value`), `current_value` is
non-decreasing across every sequence of `signal`/`client_sync`
operations; and any returning `client_sync` call changes the state only
by popping some front prefix of the queue in order, `current_value`
becoming the value of the last popped SyncPoint (or staying unchanged
when none is popped). -/
theorem timeline_monotone_amended :
    (∀ t t' : Timeline, t.WF → Relation.ReflTransGen TimelineStep t t' →
      t.current_value ≤ t'.current_value ∧ t'.WF) ∧
    (∀ (t : Timeline) (v : Nat) (timeout : Timeout) (oracle : WaitOracle)
        (b : Bool) (t' : Timeline),
      t.client_sync v timeout oracle = .ret b t' →
      ∃ k, t'.sync_points = t.sync_points.drop k ∧
        ((k = 0 ∧ t'.current_value = t.current_value) ∨
          (0 < k ∧ ∃ p, t.sync_points[k - 1]? = some p ∧
            t'.current_value = p.value))) := by
  constructor
  · intro t t' hwf hrt
    induction hrt with
    | refl => exact ⟨le_refl _, hwf⟩
    | tail _hab hstep ih =>
      have h2 := timelineStep_mono ih.2 hstep
      exact ⟨le_trans ih.1 h2.1, h2.2⟩
  · intro t v timeout oracle b t' h
    exact clientSyncGo_processes_front h

/-- Witness for the amended C8 at a concrete timeline and a concrete
one-step operation sequence. -/
theorem timeline_monotone_amended_witness :
    ((Timeline.mk [SyncPoint.mk 3] 1).current_value ≤
        (Timeline.mk [] 3).current_value ∧ (Timeline.mk [] 3).WF) ∧
    (∃ k, (Timeline.mk [] 3).sync_points =
        (Timeline.mk [SyncPoint.mk 3] 1).sync_points.drop k ∧
      ((k = 0 ∧ (Timeline.mk [] 3).current_value =
          (Timeline.mk [SyncPoint.mk 3] 1).current_value) ∨
        (0 < k ∧ ∃ p, (Timeline.mk [SyncPoint.mk 3] 1).sync_points[k - 1]? =
            some p ∧ (Timeline.mk [] 3).current_value = p.value))) :=
  ⟨timeline_monotone_amended.1 (Timeline.mk [SyncPoint.mk 3] 1)
      (Timeline.mk [] 3) (by decide)
      (Relation.ReflTransGen.single (TimelineStep.sync
        (by decide :
          (Timeline.mk [SyncPoint.mk 3] 1).client_sync 2 .Infinite
              (fun _ _ => .conditionSatisfied) =
            .ret true (Timeline.mk [] 3)))),
    timeline_monotone_amended.2 (Timeline.mk [SyncPoint.mk 3] 1) 2 .Infinite
      (fun _ _ => .conditionSatisfied) true (Timeline.mk [] 3) (by decide)⟩

/-! ## Blackboard — embedding of `api-extra/src/blackboard.rs`

Backend pointers (`*const B::Image`, `*const B::Buffer`) are opaque
handles, embedded as `Nat`. `TypeId` is likewise an opaque code,
embedded as `Nat` (two Rust types are embedded as the same code exactly
when their `TypeId`s are equal). The `RefCell<HashMap<..>>` lookup table
is embedded as an association list with unique keys. -/

/-- blackboard.rs lines 15-20. -/
structure ImageDesc1d where
  format : Nat
  width : Nat
  mips : Nat
deriving DecidableEq

/-- blackboard.rs lines 22-28. -/
structure ImageDesc2d where
  format : Nat
  width : Nat
  height : Nat
  mips : Nat
deriving DecidableEq

/-- blackboard.rs lines 30-37. -/
structure ImageDesc3d where
  format : Nat
  width : Nat
  height : Nat
  depth : Nat
  mips : Nat
deriving DecidableEq

/-- blackboard.rs lines 39-59: a named resource entry. -/
inductive BlackboardResource where
  | image1d (desc : ImageDesc1d) (img : Nat)
  | image2d (desc : ImageDesc2d) (img : Nat)
  | image3d (desc : ImageDesc3d) (img : Nat)
  | buffer (size : Nat) (buf : Nat) (typeid : Option Nat)
deriving DecidableEq

/-- blackboard.rs lines 61-65: a blackboard scope with an optional
parent scope (the arena field is backend state, not modelled). -/
inductive Blackboard where
  | mk (lookup : List (String × BlackboardResource)) (parent : Option Blackboard)

/-- `Blackboard::get_resource` (blackboard.rs lines 170-178): look the
name up in this scope's table, else recurse into the parent. -/
def Blackboard.get_resource : Blackboard → String → Option BlackboardResource
  | .mk lookup parent, name =>
    match lookup.lookup name with
    | some r => some r
    | none =>
      match parent with
      | some p => p.get_resource name
      | none => none

/-- `Blackboard::buffer_by_name::<T>` (blackboard.rs lines 110-117),
with `T` represented by its `TypeId` code `tyT`; the returned
`Buffer<B, T>` is represented by the raw buffer handle it wraps. -/
def Blackboard.buffer_by_name (bb : Blackboard) (tyT : Nat) (name : String) : Option Nat :=
  match bb.get_resource name with
  | some (.buffer _ buf typeid) => if typeid = some tyT then some buf else none
  | _ => none

/-- The scope chain of a blackboard, child to root, nearest first. -/
def Blackboard.scopes : Blackboard → List (List (String × BlackboardResource))
  | .mk lookup parent =>
    lookup ::
      (match parent with
       | some p => p.scopes
       | none => [])

theorem get_resource_eq_scopes_lookup (name : String) :
    ∀ bb : Blackboard,
      bb.get_resource name = bb.scopes.findSome? (fun l => l.lookup name)
  | .mk lookup none => by
    rw [Blackboard.get_resource, Blackboard.scopes]
    simp only [List.findSome?]
    cases lookup.lookup name <;> simp
  | .mk lookup (some p) => by
    rw [Blackboard.get_resource, Blackboard.scopes]
    have ih := get_resource_eq_scopes_lookup name p
    simp only [List.findSome?]
    cases lookup.lookup name <;> simp [ih]

/-! ### Claim theorem for the blackboard (C10) -/

/-- Claim C10: `buffer_by_name::<T>(name)` returns `some buffer` exactly
when the scope chain (this blackboard, then its parents, searched child
to root, nearest scope first) holds a `Buffer` resource under `name`
whose recorded `TypeId` is exactly `T`; a missing name, a non-buffer
resource, or a different (or absent) stored `TypeId` yields `none`. -/
theorem buffer_by_name_spec (bb : Blackboard) (tyT : Nat) (name : String) (b : Nat) :
    (bb.buffer_by_name tyT name = some b ↔
      ∃ size, bb.get_resource name =
        some (BlackboardResource.buffer size b (some tyT))) ∧
    bb.get_resource name = bb.scopes.findSome? (fun l => l.lookup name) := by
  refine ⟨?_, get_resource_eq_scopes_lookup name bb⟩
  unfold Blackboard.buffer_by_name
  cases hres : bb.get_resource name with
  | none => simp
  | some r =>
    cases r with
    | image1d desc img => simp
    | image2d desc img => simp
    | image3d desc img => simp
    | buffer size buf typeid =>
      by_cases hty : typeid = some tyT
      · subst hty
        simp [eq_comm]
      · simp [hty]

/-! ## Task graph — frame-graph primitives

The module defining `FrameGraph`, `Dependency` and `add_dependency` is
not among the inspected sources (only its callers in
`src/frame/graphics.rs` are); the definitions below are modelled from
the specification, §3 "Data model" and §4.1 "Task Graph". -/

/-- `vk::ImageLayout` values used by `src/frame/graphics.rs`. -/
inductive ImageLayout where
  | Undefined
  | ColorAttachmentOptimal
  | DepthStencilAttachmentOptimal
  | ShaderReadOnlyOptimal
deriving DecidableEq

/-- `vk::AttachmentLoadOp`. -/
inductive AttachmentLoadOp where
  | Load
  | Clear
  | DontCare
deriving DecidableEq

/-- `vk::AttachmentStoreOp`. -/
inductive AttachmentStoreOp where
  | Store
  | DontCare
deriving DecidableEq

/-- Modelled from the spec: the `Image` barrier payload — "full pipeline
barrier with old/new layout and access masks" (§3, Dependency), with the
fields that `src/frame/graphics.rs` fills in. -/
structure ImageBarrier where
  id : Nat
  old_layout : ImageLayout
  new_layout : ImageLayout
  src_access_mask : Nat
  dst_access_mask : Nat
deriving DecidableEq

/-- Modelled from the spec: the `Subpass` barrier payload — "lighter
barrier implied by a render-pass transition" (§3, Dependency), with the
fields that `src/frame/graphics.rs` fills in. -/
structure SubpassBarrier where
  id : Nat
  old_layout : ImageLayout
  new_layout : ImageLayout
  src_access_mask : Nat
  dst_access_mask : Nat
deriving DecidableEq

/-- Modelled from the spec: `BarrierDetail` is a tagged variant, `Image`
or `Subpass` (§3, Dependency). -/
inductive BarrierDetail where
  | Image (b : ImageBarrier)
  | Subpass (b : SubpassBarrier)
deriving DecidableEq

/-- Modelled from the spec: a task-graph edge payload — "{source stage
mask, destination stage mask, BarrierDetail, latency}" (§3). -/
structure Dependency where
  src_stage_mask : Nat
  dst_stage_mask : Nat
  barrier : BarrierDetail
  latency : Nat
deriving DecidableEq

/-- Modelled from the spec: a directed task-graph edge with its
`Dependency` annotation (§3); task ids are `Nat`. -/
structure TGEdge where
  src : Nat
  dst : Nat
  dep : Dependency
deriving DecidableEq

/-- Modelled from the spec: the Task Graph — "a directed graph whose
nodes are logical tasks and whose edges are dependencies" (§2), nodes
created by `create_task` as consecutive ids (§4.1). -/
structure FrameGraph where
  numTasks : Nat
  edges : List TGEdge
deriving DecidableEq

/-- Modelled from the spec: `create_task(name, queue, details) -> TaskId`
"creates an isolated node" (§4.1); the id is the next consecutive `Nat`.
The name, queue and details do not affect the graph structure verified
here and are kept only as arguments. -/
def FrameGraph.create_task_on_queue (g : FrameGraph) (_name : String)
    (_queue : Nat) : FrameGraph × Nat :=
  ({ g with numTasks := g.numTasks + 1 }, g.numTasks)

/-- Successors of node `a`: destinations of edges leaving `a`. -/
def succs (es : List TGEdge) (a : Nat) : List Nat :=
  (es.filter (fun e => e.src == a)).map TGEdge.dst

/-- One breadth-first expansion step of a node set. -/
def stepSet (es : List TGEdge) (s : List Nat) : List Nat :=
  (s ++ s.flatMap (succs es)).dedup

/-- Nodes reachable from `a` in at most `n` expansion steps. -/
def reachSet (es : List TGEdge) (a : Nat) : Nat → List Nat
  | 0 => [a]
  | n + 1 => stepSet es (reachSet es a n)

/-- Executable reachability: `es.length + 1` expansion steps reach a
fixpoint (proved below), so this decides reachability. -/
def reachesB (es : List TGEdge) (a b : Nat) : Bool :=
  b ∈ reachSet es a (es.length + 1)

/-- Reachability along directed edges (reflexive-transitive). -/
inductive Reaches (es : List TGEdge) : Nat → Nat → Prop where
  | refl (a : Nat) : Reaches es a a
  | head {a b c : Nat} (hab : b ∈ succs es a) (hbc : Reaches es b c) :
      Reaches es a c

theorem Reaches.tail {es : List TGEdge} {a b c : Nat}
    (hab : Reaches es a b) (hbc : c ∈ succs es b) : Reaches es a c := by
  induction hab with
  | refl a => exact Reaches.head hbc (Reaches.refl c)
  | head h _ ih => exact Reaches.head h (ih hbc)

theorem Reaches.trans {es : List TGEdge} {a b c : Nat}
    (hab : Reaches es a b) (hbc : Reaches es b c) : Reaches es a c := by
  induction hab with
  | refl a => exact hbc
  | head h _ ih => exact Reaches.head h (ih hbc)

theorem mem_stepSet {es : List TGEdge} {s : List Nat} {x : Nat} :
    x ∈ stepSet es s ↔ x ∈ s ∨ ∃ y ∈ s, x ∈ succs es y := by
  simp [stepSet]

theorem subset_stepSet {es : List TGEdge} {s : List Nat} {x : Nat}
    (h : x ∈ s) : x ∈ stepSet es s :=
  mem_stepSet.mpr (Or.inl h)

theorem stepSet_mono {es : List TGEdge} {s t : List Nat}
    (h : ∀ x ∈ s, x ∈ t) : ∀ x ∈ stepSet es s, x ∈ stepSet es t := by
  intro x hx
  rcases mem_stepSet.mp hx with hx | ⟨y, hy, hxy⟩
  · exact mem_stepSet.mpr (Or.inl (h x hx))
  · exact mem_stepSet.mpr (Or.inr ⟨y, h y hy, hxy⟩)

theorem nodup_reachSet (es : List TGEdge) (a : Nat) :
    ∀ n, (reachSet es a n).Nodup
  | 0 => by simp [reachSet]
  | n + 1 => by
    rw [reachSet, stepSet]
    exact List.nodup_dedup _

theorem reachSet_subset_univ (es : List TGEdge) (a : Nat) :
    ∀ n, ∀ x ∈ reachSet es a n, x ∈ a :: es.map TGEdge.dst
  | 0 => by simp [reachSet]
  | n + 1 => by
    intro x hx
    rw [reachSet] at hx
    rcases mem_stepSet.mp hx with hx | ⟨y, _, hxy⟩
    · exact reachSet_subset_univ es a n x hx
    · simp only [succs, List.mem_map] at hxy
      obtain ⟨e, he, rfl⟩ := hxy
      exact List.mem_cons_of_mem a (List.mem_map_of_mem TGEdge.dst (List.mem_of_mem_filter he))

theorem length_reachSet_le (es : List TGEdge) (a : Nat) (n : Nat) :
    (reachSet es a n).length ≤ es.length + 1 := by
  have h := ((nodup_reachSet es a n).subperm
    (fun x hx => reachSet_subset_univ es a n x hx)).length_le
  simpa using h

theorem reachSet_mono_fuel (es : List TGEdge) (a : Nat) :
    ∀ {m n : Nat}, m ≤ n → ∀ x ∈ reachSet es a m, x ∈ reachSet es a n := by
  intro m n h
  induction n with
  | zero =>
    intro x hx
    rw [Nat.le_zero.mp h] at hx
    exact hx
  | succ n ih =>
    intro x hx
    rcases Nat.lt_or_ge m (n + 1) with hm | hm
    · rw [reachSet]
      exact subset_stepSet (ih (Nat.lt_succ_iff.mp hm) x hx)
    · have : m = n + 1 := le_antisymm h hm
      rw [this] at hx
      exact hx

theorem stable_after (es : List TGEdge) (a : Nat) (n : Nat)
    (hstab : ∀ x ∈ reachSet es a (n + 1), x ∈ reachSet es a n) :
    ∀ m, ∀ x ∈ reachSet es a (n + m), x ∈ reachSet es a n := by
  intro m
  induction m with
  | zero => intro x hx; exact hx
  | succ m ih =>
    intro x hx
    have : n + (m + 1) = (n + m) + 1 := rfl
    rw [this, reachSet] at hx
    have h2 := stepSet_mono ih x hx
    rw [← reachSet] at h2
    exact hstab x h2

theorem reachSet_grows (es : List TGEdge) (a : Nat) :
    ∀ n, (∀ k < n, ∃ x ∈ reachSet es a (k + 1), x ∉ reachSet es a k) →
      n + 1 ≤ (reachSet es a n).length := by
  intro n
  induction n with
  | zero => intro _; simp [reachSet]
  | succ n ih =>
    intro h
    have hn := ih (fun k hk => h k (Nat.lt_succ_of_lt hk))
    obtain ⟨x, hx1, hx0⟩ := h n (Nat.lt_succ_self n)
    have hsub : ∀ y ∈ x :: reachSet es a n, y ∈ reachSet es a (n + 1) := by
      intro y hy
      rcases List.mem_cons.mp hy with rfl | hy
      · exact hx1
      · rw [reachSet]
        exact subset_stepSet hy
    have hnodup : (x :: reachSet es a n).Nodup :=
      List.nodup_cons.mpr ⟨hx0, nodup_reachSet es a n⟩
    have := (hnodup.subperm hsub).length_le
    simp only [List.length_cons] at this
    omega

theorem exists_stable (es : List TGEdge) (a : Nat) :
    ∃ k ≤ es.length, ∀ x ∈ reachSet es a (k + 1), x ∈ reachSet es a k := by
  by_contra hcon
  push_neg at hcon
  have hgrow : ∀ k < es.length + 1,
      ∃ x ∈ reachSet es a (k + 1), x ∉ reachSet es a k := by
    intro k hk
    obtain ⟨x, hx1, hx0⟩ := hcon k (Nat.lt_succ_iff.mp hk)
    exact ⟨x, hx1, hx0⟩
  have := reachSet_grows es a (es.length + 1) hgrow
  have hle := length_reachSet_le es a (es.length + 1)
  omega

theorem reachSet_closed (es : List TGEdge) (a : Nat) :
    ∀ x ∈ stepSet es (reachSet es a (es.length + 1)),
      x ∈ reachSet es a (es.length + 1) := by
  obtain ⟨k, hk, hstab⟩ := exists_stable es a
  have hup : ∀ x ∈ reachSet es a (es.length + 1), x ∈ reachSet es a k := by
    have : es.length + 1 = k + (es.length + 1 - k) := by omega
    rw [this]
    exact stable_after es a k hstab _
  intro x hx
  have h1 := stepSet_mono hup x hx
  rw [← reachSet] at h1
  have h2 := hstab x h1
  exact reachSet_mono_fuel es a (by omega) x h2

theorem reachSet_sound (es : List TGEdge) (a : Nat) :
    ∀ n, ∀ b ∈ reachSet es a n, Reaches es a b
  | 0 => by
    intro b hb
    rw [reachSet, List.mem_singleton] at hb
    subst hb
    exact Reaches.refl _
  | n + 1 => by
    intro b hb
    rw [reachSet] at hb
    rcases mem_stepSet.mp hb with hb | ⟨y, hy, hby⟩
    · exact reachSet_sound es a n b hb
    · exact (reachSet_sound es a n y hy).tail hby

theorem reaches_mem_closed {es : List TGEdge} {x y : Nat} {T : List Nat}
    (h : Reaches es x y) (hx : x ∈ T)
    (hclosed : ∀ z ∈ T, ∀ w ∈ succs es z, w ∈ T) : y ∈ T := by
  induction h with
  | refl a => exact hx
  | head hab _ ih => exact ih (hclosed _ hx _ hab)

theorem reachesB_iff_reaches {es : List TGEdge} {a b : Nat} :
    reachesB es a b = true ↔ Reaches es a b := by
  constructor
  · intro h
    rw [reachesB, decide_eq_true_eq] at h
    exact reachSet_sound es a _ b h
  · intro h
    rw [reachesB, decide_eq_true_eq]
    refine reaches_mem_closed h ?_ ?_
    · exact reachSet_mono_fuel es a (Nat.zero_le _) a (by simp [reachSet])
    · intro z hz w hw
      exact reachSet_closed es a w (mem_stepSet.mpr (Or.inr ⟨z, hz, hw⟩))

instance (es : List TGEdge) (a b : Nat) : Decidable (Reaches es a b) :=
  decidable_of_iff (reachesB es a b = true) reachesB_iff_reaches

/-- Modelled from the spec: `add_dependency(src, dst, Dependency)` "adds
a directed edge; fails (abstractly: returns an error / fails an
assertion) if `src == dst` or if the edge would create a cycle reachable
through existing edges" (§4.1). -/
def FrameGraph.add_dependency (g : FrameGraph) (src dst : Nat)
    (dep : Dependency) : Except String FrameGraph :=
  if src = dst then
    .error "add_dependency: self-dependency"
  else if reachesB g.edges dst src then
    .error "add_dependency: would create a cycle"
  else
    .ok { g with edges := g.edges ++ [{ src, dst, dep }] }

/-- The spec's Task Graph invariant: no edge closes a cycle ("the Task
Graph is acyclic at all times", §3). -/
def FrameGraph.Acyclic (g : FrameGraph) : Prop :=
  ∀ e ∈ g.edges, ¬ Reaches g.edges e.dst e.src

instance (g : FrameGraph) : Decidable g.Acyclic := by
  unfold FrameGraph.Acyclic
  infer_instance

/-- A recorded `add_dependency` call. -/
structure DepCall where
  src : Nat
  dst : Nat
  dep : Dependency
deriving DecidableEq

/-- Run a sequence of `add_dependency` calls; a rejected call leaves the
graph exactly as it was (the error aborts that call only). -/
def runDeps (g : FrameGraph) (calls : List DepCall) : FrameGraph :=
  calls.foldl
    (fun g c =>
      match g.add_dependency c.src c.dst c.dep with
      | .ok g' => g'
      | .error _ => g)
    g
theorem succs_append {es : List TGEdge} {e : TGEdge} {a : Nat} :
    succs (es ++ [e]) a =
      succs es a ++ (if e.src = a then [e.dst] else []) := by
  rw [succs, succs, List.filter_append, List.map_append]
  congr 1
  by_cases h : e.src = a
  · have hb : (e.src == a) = true := beq_iff_eq.mpr h
    simp [List.filter, hb, h]
  · have hb : (e.src == a) = false := beq_eq_false_iff_ne.mpr h
    simp [List.filter, hb, h]

theorem reaches_of_reaches_sub {es : List TGEdge} {e : TGEdge} {a b : Nat}
    (h : Reaches es a b) : Reaches (es ++ [e]) a b := by
  induction h with
  | refl a => exact Reaches.refl a
  | head hab _ ih =>
    refine Reaches.head ?_ ih
    rw [succs_append]
    exact List.mem_append_left _ hab

theorem reaches_append_elim {es : List TGEdge} {e : TGEdge}
    (hnc : ¬ Reaches es e.dst e.src) :
    ∀ {a b : Nat}, Reaches (es ++ [e]) a b →
      Reaches es a b ∨ (Reaches es a e.src ∧ Reaches es e.dst b) := by
  intro a b h
  induction h with
  | refl a => exact Or.inl (Reaches.refl a)
  | @head a₀ b₀ c₀ hab _hbc ih =>
    rw [succs_append] at hab
    rcases List.mem_append.mp hab with hab | hab
    · rcases ih with hbc | ⟨hbsrc, hdc⟩
      · exact Or.inl (Reaches.head hab hbc)
      · exact Or.inr ⟨Reaches.head hab hbsrc, hdc⟩
    · by_cases hsrc : e.src = a₀
      · rw [if_pos hsrc, List.mem_singleton] at hab
        subst hab
        rcases ih with hdc | ⟨hdsrc, _⟩
        · refine Or.inr ⟨?_, hdc⟩
          rw [hsrc]
          exact Reaches.refl a₀
        · exact absurd hdsrc hnc
      · rw [if_neg hsrc] at hab
        exact absurd hab (List.not_mem_nil b₀)

theorem edge_dst_mem_succs {es : List TGEdge} {e : TGEdge} (he : e ∈ es) :
    e.dst ∈ succs es e.src := by
  rw [succs, List.mem_map]
  exact ⟨e, List.mem_filter.mpr ⟨he, by simp⟩, rfl⟩

theorem add_dependency_ok_acyclic {g g' : FrameGraph} {src dst : Nat}
    {dep : Dependency} (hac : g.Acyclic)
    (h : g.add_dependency src dst dep = .ok g') : g'.Acyclic := by
  rw [FrameGraph.add_dependency] at h
  by_cases hself : src = dst
  · rw [if_pos hself] at h
    exact absurd h (by simp)
  · rw [if_neg hself] at h
    by_cases hcyc : reachesB g.edges dst src
    · rw [if_pos hcyc] at h
      exact absurd h (by simp)
    · rw [if_neg hcyc] at h
      simp only [Except.ok.injEq] at h
      subst h
      have hnc : ¬ Reaches g.edges dst src := fun hr =>
        hcyc (reachesB_iff_reaches.mpr hr)
      intro f hf hloop
      simp only [List.mem_append, List.mem_singleton] at hf
      rcases hf with hf | rfl
      · rcases reaches_append_elim (e := { src, dst, dep }) hnc hloop with
          hr | ⟨hr1, hr2⟩
        · exact hac f hf hr
        · exact hnc ((hr2.tail (edge_dst_mem_succs hf)).trans hr1)
      · rcases reaches_append_elim (e := { src, dst, dep }) hnc hloop with
          hr | ⟨hr1, _⟩
        · exact hnc hr
        · exact hnc hr1

/-! ### Claim theorem for the task graph (C1) -/

/-- Claim C1: for every sequence of `add_dependency` calls the Task
Graph remains acyclic; a call with `src == dst` or one whose edge would
close a cycle through existing edges fails loudly (returns an error),
and a rejected call leaves the graph exactly as it was. -/
theorem add_dependency_preserves_acyclic :
    (∀ (g : FrameGraph) (calls : List DepCall),
      g.Acyclic → (runDeps g calls).Acyclic) ∧
    (∀ (g : FrameGraph) (src dst : Nat) (dep : Dependency),
      src = dst ∨ Reaches g.edges dst src →
      ∃ msg, g.add_dependency src dst dep = .error msg) ∧
    (∀ (g : FrameGraph) (c : DepCall),
      c.src = c.dst ∨ Reaches g.edges c.dst c.src →
      runDeps g [c] = g) := by
  have herr : ∀ (g : FrameGraph) (src dst : Nat) (dep : Dependency),
      src = dst ∨ Reaches g.edges dst src →
      ∃ msg, g.add_dependency src dst dep = .error msg := by
    intro g src dst dep h
    rw [FrameGraph.add_dependency]
    by_cases hself : src = dst
    · exact ⟨_, by rw [if_pos hself]⟩
    · rcases h with h | h
      · exact absurd h hself
      · rw [if_neg hself, if_pos (reachesB_iff_reaches.mpr h)]
        exact ⟨_, rfl⟩
  refine ⟨?_, herr, ?_⟩
  · intro g calls
    induction calls generalizing g with
    | nil => intro h; exact h
    | cons c cs ih =>
      intro hac
      rw [runDeps, List.foldl_cons]
      cases hadd : g.add_dependency c.src c.dst c.dep with
      | ok g' => exact ih g' (add_dependency_ok_acyclic hac hadd)
      | error msg => exact ih g hac
  · intro g c h
    obtain ⟨msg, hmsg⟩ := herr g c.src c.dst c.dep h
    rw [runDeps, List.foldl_cons, hmsg, List.foldl_nil]

/-- A concrete `Dependency` payload for witnesses. -/
def depA : Dependency :=
  { src_stage_mask := PIPELINE_STAGE_TOP_OF_PIPE_BIT,
    dst_stage_mask := PIPELINE_STAGE_VERTEX_SHADER_BIT,
    barrier := .Image
      { id := 0, old_layout := .Undefined, new_layout := .ShaderReadOnlyOptimal,
        src_access_mask := 0, dst_access_mask := ACCESS_SHADER_READ_BIT },
    latency := 0 }

/-- Witness for C1: a two-call sequence on a concrete graph (the second
call would close a cycle and is rejected), a rejected self-dependency,
and a rejected cycle-closing call leaving the graph unchanged. -/
theorem add_dependency_preserves_acyclic_witness :
    (runDeps (FrameGraph.mk 2 [])
      [DepCall.mk 0 1 depA, DepCall.mk 1 0 depA]).Acyclic ∧
    (∃ msg, (FrameGraph.mk 2 []).add_dependency 0 0 depA = .error msg) ∧
    runDeps (FrameGraph.mk 2 [TGEdge.mk 0 1 depA]) [DepCall.mk 1 0 depA] =
      FrameGraph.mk 2 [TGEdge.mk 0 1 depA] :=
  ⟨add_dependency_preserves_acyclic.1 (FrameGraph.mk 2 [])
      [DepCall.mk 0 1 depA, DepCall.mk 1 0 depA] (by decide),
    add_dependency_preserves_acyclic.2.1 (FrameGraph.mk 2 []) 0 0 depA
      (Or.inl rfl),
    add_dependency_preserves_acyclic.2.2 (FrameGraph.mk 2 [TGEdge.mk 0 1 depA])
      (DepCall.mk 1 0 depA) (Or.inr (by decide))⟩

/-! ## Resources, render passes and reference types

Modelled from the spec (§3, §4.3, §4.4): the defining module is not
among the inspected sources; `src/frame/graphics.rs` is their caller. -/

/-- `vk::Extent3D`. -/
structure Extent3D where
  width : Nat
  height : Nat
  depth : Nat
deriving DecidableEq

/-- The `vk::ImageCreateInfo` fields populated and consumed by
`src/frame/graphics.rs` (FFI plumbing such as `s_type`/`p_next` and
constant fields are not modelled). -/
structure ImageCreateInfo where
  format : Nat
  extent : Extent3D
  mip_levels : Nat
  array_layers : Nat
  samples : Nat
  usage : Nat
  initial_layout : ImageLayout
deriving DecidableEq

/-- Modelled from the spec: one tracked image resource — accumulated
usage flags, frozen once backend storage exists (§4.3). -/
structure ImageResource where
  name : String
  create_info : ImageCreateInfo
  usage : Nat
  frozen : Bool
deriving DecidableEq

/-- Modelled from the spec: the Resource Usage Tracker state (§2, §4.3). -/
structure Resources where
  images : List ImageResource
deriving DecidableEq

/-- Modelled from the spec: `add_or_check_image_usage(resourceId,
usageFlag)` "unions usageFlag into the resource's accumulated usage
flags; if the resource was already created with backend storage (flags
frozen), any new flag not present in that frozen set is an error"
(§4.3). -/
def Resources.add_or_check_image_usage (r : Resources) (id flag : Nat) :
    Except String Resources :=
  match r.images[id]? with
  | none => .error "add_or_check_image_usage: unknown resource"
  | some img =>
    if img.frozen then
      if flag &&& img.usage = flag then
        .ok r
      else
        .error "add_or_check_image_usage: usage not declared before allocation"
    else
      .ok { images := r.images.set id { img with usage := img.usage ||| flag } }

/-- Modelled from the spec: `get_image_create_info(resourceId)` "returns
format/sample-count metadata needed by attachment description assembly"
(§4.3); an unknown id is a hard error (Rust would panic on indexing). -/
def Resources.get_image_create_info (r : Resources) (id : Nat) :
    Except String ImageCreateInfo :=
  match r.images[id]? with
  | none => .error "get_image_create_info: unknown resource"
  | some img => .ok img.create_info

/-- Modelled from the spec: resource creation registers the declared
image and returns its fresh frame-scoped id (§3, §6). -/
def Resources.create_image (r : Resources) (name : String)
    (desc : ImageCreateInfo) : Resources × Nat :=
  ({ images := r.images ++
      [{ name, create_info := desc, usage := desc.usage, frozen := false }] },
    r.images.length)

/-- `vk::AttachmentDescription` as populated by `src/frame/graphics.rs`. -/
structure AttachmentDescription where
  format : Nat
  samples : Nat
  load_op : AttachmentLoadOp
  store_op : AttachmentStoreOp
  stencil_load_op : AttachmentLoadOp
  stencil_store_op : AttachmentStoreOp
  initial_layout : ImageLayout
  final_layout : ImageLayout
deriving DecidableEq

/-- Modelled from the spec: a render pass — ordered attachment
descriptions plus the subpass task list (§3, RenderPass). -/
structure RenderPass where
  tasks : List Nat
  attachments : List Nat
  attachments_desc : List AttachmentDescription
deriving DecidableEq

/-- Modelled from the spec: `add_attachment(resourceId, description) ->
index` "appends and returns the new index" (§4.4). -/
def RenderPass.add_attachment (rp : RenderPass) (img : Nat)
    (desc : AttachmentDescription) : RenderPass × Nat :=
  ({ rp with
      attachments := rp.attachments ++ [img],
      attachments_desc := rp.attachments_desc ++ [desc] },
    rp.attachments_desc.length)

/-- Modelled from the spec: `ImageRef` — "(ResourceId, owning TaskId,
pipeline-stage-at-last-use, read-flag, write-flag, estimated latency)"
(§3); the `Cell` flags become plain fields under explicit state
passing. -/
structure ImageRef where
  id : Nat
  task : Nat
  src_stage_mask : Nat
  read : Bool
  written : Bool
  latency : Nat
deriving DecidableEq

/-- Modelled from the spec: `set_read` marks the reference read and
"fails if already marked written-without-read-allowed — a read/write
conflict" (§4.2); the caller in graphics.rs unwraps with
`.expect("R/W conflict")`. -/
def ImageRef.set_read (r : ImageRef) : Except String ImageRef :=
  if r.written then .error "R/W conflict" else .ok { r with read := true }

/-- Modelled from the spec: `AttachmentId` — "{owning render pass,
attachment index, backing ResourceId}" (§3). -/
structure AttachmentId where
  renderpass : Nat
  index : Nat
  img : Nat
deriving DecidableEq

/-- Modelled from the spec: an attachment reference handed between task
builders, with the same bookkeeping fields as `ImageRef` (§3). -/
structure AttachmentRef where
  task : Nat
  id : AttachmentId
  read : Bool
  written : Bool
  src_stage_mask : Nat
  latency : Nat
deriving DecidableEq

/-! ## Graphics task builder — embedding of `src/frame/graphics.rs` -/

/-- `vk::AttachmentReference` (graphics.rs lines 9-12 use it for the
subpass attachment lists). -/
structure AttachmentReference where
  attachment : Nat
  layout : ImageLayout
deriving DecidableEq

/-- graphics.rs lines 6-14: per-subpass data of a graphics task. -/
structure GraphicsTask where
  renderpass : Nat
  color_attachments : List AttachmentReference
  input_attachments : List AttachmentReference
  resolve_attachments : List AttachmentReference
  depth_attachment : Option AttachmentReference
  shader_images : List Nat
deriving DecidableEq

/-- graphics.rs lines 19-25: the graphics task builder. The Rust
borrows (`&mut FrameGraph` etc.) become owned fields threaded through
each operation. -/
structure GraphicsTaskBuilder where
  graph : FrameGraph
  resources : Resources
  renderpasses : List RenderPass
  task : Nat
  graphics_task : GraphicsTask
deriving DecidableEq

/-- `GraphicsTaskBuilder::new` (graphics.rs lines 28-55): create a dummy
task node, append it to the render pass's task list, start with empty
attachment state. -/
def GraphicsTaskBuilder.new (name : String) (renderpass : Nat)
    (graph : FrameGraph) (resources : Resources)
    (renderpasses : List RenderPass) : Except String GraphicsTaskBuilder :=
  match renderpasses[renderpass]? with
  | none => .error "renderpass index out of bounds"
  | some rp =>
    let (graph, task) := graph.create_task_on_queue name 0
    .ok
      { graph, resources,
        renderpasses :=
          renderpasses.set renderpass { rp with tasks := rp.tasks ++ [task] },
        task,
        graphics_task :=
          { renderpass, shader_images := [], color_attachments := [],
            input_attachments := [], resolve_attachments := [],
            depth_attachment := none } }

/-- `GraphicsTaskBuilder::sample_image` (graphics.rs lines 58-82):
mark the reference read, register `SAMPLED` usage, then — with no
same-task guard — `add_dependency(img.task, self.task, ..)` with
destination stage `VERTEX_SHADER` and an `Image` barrier to
`ShaderReadOnlyOptimal` with destination access `SHADER_READ`; finally
record the image in `shader_images`. -/
def GraphicsTaskBuilder.sample_image (b : GraphicsTaskBuilder)
    (img : ImageRef) : Except String (GraphicsTaskBuilder × ImageRef) :=
  match img.set_read with
  | .error e => .error e
  | .ok img =>
    match b.resources.add_or_check_image_usage img.id IMAGE_USAGE_SAMPLED_BIT with
    | .error e => .error e
    | .ok resources =>
      match b.graph.add_dependency img.task b.task
          { src_stage_mask := img.src_stage_mask,
            dst_stage_mask := PIPELINE_STAGE_VERTEX_SHADER_BIT,
            barrier := .Image
              { id := img.id, old_layout := .Undefined,
                new_layout := .ShaderReadOnlyOptimal,
                src_access_mask := 0,
                dst_access_mask := ACCESS_SHADER_READ_BIT },
            latency := img.latency } with
      | .error e => .error e
      | .ok graph =>
        .ok
          ({ b with
              resources, graph,
              graphics_task :=
                { b.graphics_task with
                    shader_images :=
                      b.graphics_task.shader_images ++ [img.id] } },
            img)

/-- `GraphicsTaskBuilder::set_depth_attachment` (graphics.rs lines
87-126): record the depth attachment reference with layout
`DepthStencilAttachmentOptimal`; when the owning task differs from the
current task add a `Subpass` dependency with destination stage
`EARLY_FRAGMENT_TESTS` and destination access depth-stencil write|read;
finally register `DEPTH_STENCIL_ATTACHMENT` usage. -/
def GraphicsTaskBuilder.set_depth_attachment (b : GraphicsTaskBuilder)
    (depth_attachment : AttachmentRef) : Except String GraphicsTaskBuilder :=
  match (if depth_attachment.task ≠ b.task then
      b.graph.add_dependency depth_attachment.task b.task
        { src_stage_mask := depth_attachment.src_stage_mask,
          dst_stage_mask := PIPELINE_STAGE_EARLY_FRAGMENT_TESTS_BIT,
          barrier := .Subpass
            { id := depth_attachment.id.img, old_layout := .Undefined,
              new_layout := .Undefined, src_access_mask := 0,
              dst_access_mask := ACCESS_DEPTH_STENCIL_ATTACHMENT_WRITE_BIT |||
                ACCESS_DEPTH_STENCIL_ATTACHMENT_READ_BIT },
          latency := depth_attachment.latency }
    else
      .ok b.graph) with
  | .error e => .error e
  | .ok graph =>
    match b.resources.add_or_check_image_usage depth_attachment.id.img
        IMAGE_USAGE_DEPTH_STENCIL_ATTACHMENT_BIT with
    | .error e => .error e
    | .ok resources =>
      .ok
        { b with
            graphics_task :=
              { b.graphics_task with
                  depth_attachment := some
                    { attachment := depth_attachment.id.index,
                      layout := .DepthStencilAttachmentOptimal } },
            graph, resources }

/-- The dependency loop of `set_input_attachments` (graphics.rs lines
137-163): for each reference, when its owning task differs from the
current task, add a `Subpass` dependency with destination stage
`TOP_OF_PIPE` and destination access `INPUT_ATTACHMENT_READ`; always
register `INPUT_ATTACHMENT` usage. -/
def inputLoop (task : Nat) (refs : List AttachmentRef) (graph : FrameGraph)
    (resources : Resources) : Except String (FrameGraph × Resources) :=
  match refs with
  | [] => .ok (graph, resources)
  | i :: rest =>
    match (if i.task ≠ task then
        graph.add_dependency i.task task
          { src_stage_mask := i.src_stage_mask,
            dst_stage_mask := PIPELINE_STAGE_TOP_OF_PIPE_BIT,
            barrier := .Subpass
              { id := i.id.img, old_layout := .Undefined,
                new_layout := .ColorAttachmentOptimal, src_access_mask := 0,
                dst_access_mask := ACCESS_INPUT_ATTACHMENT_READ_BIT },
            latency := i.latency }
      else
        .ok graph) with
    | .error e => .error e
    | .ok graph =>
      match resources.add_or_check_image_usage i.id.img
          IMAGE_USAGE_INPUT_ATTACHMENT_BIT with
      | .error e => .error e
      | .ok resources => inputLoop task rest graph resources

/-- `GraphicsTaskBuilder::set_input_attachments` (graphics.rs lines
129-164): record every reference with layout `ColorAttachmentOptimal`,
then run the dependency/usage loop. -/
def GraphicsTaskBuilder.set_input_attachments (b : GraphicsTaskBuilder)
    (input_attachments : List AttachmentRef) :
    Except String GraphicsTaskBuilder :=
  match inputLoop b.task input_attachments b.graph b.resources with
  | .error e => .error e
  | .ok (graph, resources) =>
    .ok
      { b with
          graphics_task :=
            { b.graphics_task with
                input_attachments := input_attachments.map fun a =>
                  { attachment := a.id.index,
                    layout := ImageLayout.ColorAttachmentOptimal } },
          graph, resources }

/-- The dependency loop of `set_color_attachments` (graphics.rs lines
176-213): for each reference, when its owning task differs from the
current task, add a `Subpass` dependency with destination stage
`COLOR_ATTACHMENT_OUTPUT` and destination access color read|write;
always register `COLOR_ATTACHMENT` usage. -/
def colorLoop (task : Nat) (refs : List AttachmentRef) (graph : FrameGraph)
    (resources : Resources) : Except String (FrameGraph × Resources) :=
  match refs with
  | [] => .ok (graph, resources)
  | c :: rest =>
    match (if c.task ≠ task then
        graph.add_dependency c.task task
          { src_stage_mask := c.src_stage_mask,
            dst_stage_mask := PIPELINE_STAGE_COLOR_ATTACHMENT_OUTPUT_BIT,
            barrier := .Subpass
              { id := c.id.img, old_layout := .Undefined,
                new_layout := .ColorAttachmentOptimal, src_access_mask := 0,
                dst_access_mask := ACCESS_COLOR_ATTACHMENT_READ_BIT |||
                  ACCESS_COLOR_ATTACHMENT_WRITE_BIT },
            latency := c.latency }
      else
        .ok graph) with
    | .error e => .error e
    | .ok graph =>
      match resources.add_or_check_image_usage c.id.img
          IMAGE_USAGE_COLOR_ATTACHMENT_BIT with
      | .error e => .error e
      | .ok resources => colorLoop task rest graph resources

/-- `GraphicsTaskBuilder::set_color_attachments` (graphics.rs lines
167-214): record every reference with layout `ColorAttachmentOptimal`,
then run the dependency/usage loop. -/
def GraphicsTaskBuilder.set_color_attachments (b : GraphicsTaskBuilder)
    (color_attachments : List AttachmentRef) :
    Except String GraphicsTaskBuilder :=
  match colorLoop b.task color_attachments b.graph b.resources with
  | .error e => .error e
  | .ok (graph, resources) =>
    .ok
      { b with
          graphics_task :=
            { b.graphics_task with
                color_attachments := color_attachments.map fun a =>
                  { attachment := a.id.index,
                    layout := ImageLayout.ColorAttachmentOptimal } },
          graph, resources }

/-- `GraphicsTaskBuilder::load_attachment` (graphics.rs lines 220-255):
look up the image's creation info, append a new attachment description
to the builder's render pass with the given load op, `DontCare` store
op, stencil load op mirroring the load op, and `Undefined` layouts; no
dependency is added. The returned reference keeps the image's owning
task and carries the fresh attachment index. -/
def GraphicsTaskBuilder.load_attachment (b : GraphicsTaskBuilder)
    (img : ImageRef) (load_op : AttachmentLoadOp) :
    Except String (GraphicsTaskBuilder × AttachmentRef) :=
  match b.resources.get_image_create_info img.id with
  | .error e => .error e
  | .ok img_create_info =>
    match b.renderpasses[b.graphics_task.renderpass]? with
    | none => .error "renderpass index out of bounds"
    | some rp =>
      let (rp, attachment_index) := rp.add_attachment img.id
        { format := img_create_info.format,
          samples := img_create_info.samples,
          load_op,
          store_op := .DontCare,
          stencil_load_op := load_op,
          stencil_store_op := .DontCare,
          initial_layout := .Undefined,
          final_layout := .Undefined }
      .ok
        ({ b with
            renderpasses :=
              b.renderpasses.set b.graphics_task.renderpass rp },
          { task := img.task,
            id := { renderpass := b.graphics_task.renderpass,
                    index := attachment_index, img := img.id },
            read := false, written := false,
            src_stage_mask := PIPELINE_STAGE_TOP_OF_PIPE_BIT,
            latency := 0 })

/-- `GraphicsTaskBuilder::store_attachment` (graphics.rs lines 258-275).
NOTE (faithful to the source): the given `store_op` is assigned to the
`stencil_store_op` field of the attachment description — the `store_op`
field itself is left untouched. The returned `ImageRef` is owned by the
current task at stage `COLOR_ATTACHMENT_OUTPUT`. -/
def GraphicsTaskBuilder.store_attachment (b : GraphicsTaskBuilder)
    (attachment_ref : AttachmentRef) (store_op : AttachmentStoreOp) :
    Except String (GraphicsTaskBuilder × ImageRef) :=
  match b.renderpasses[b.graphics_task.renderpass]? with
  | none => .error "renderpass index out of bounds"
  | some rp =>
    match rp.attachments_desc[attachment_ref.id.index]? with
    | none => .error "attachment index out of bounds"
    | some desc =>
      let rp :=
        { rp with
            attachments_desc := rp.attachments_desc.set
              attachment_ref.id.index
              { desc with stencil_store_op := store_op } }
      .ok
        ({ b with
            renderpasses :=
              b.renderpasses.set b.graphics_task.renderpass rp },
          { id := attachment_ref.id.img,
            task := b.task,
            src_stage_mask := PIPELINE_STAGE_COLOR_ATTACHMENT_OUTPUT_BIT,
            read := false, written := false,
            latency := 0 })

/-- `GraphicsTaskBuilder::create_attachment` (graphics.rs lines
278-339): declare a fresh 2D image resource (initial layout
`ColorAttachmentOptimal`, usage added on use), append it as a new
attachment with the given load op and `DontCare` store op, and return a
reference owned by the current task at stage `TOP_OF_PIPE`. -/
def GraphicsTaskBuilder.create_attachment (b : GraphicsTaskBuilder)
    (name : String) (width height : Nat) (format : Nat) (samples : Nat)
    (load_op : AttachmentLoadOp) :
    Except String (GraphicsTaskBuilder × AttachmentRef) :=
  let desc : ImageCreateInfo :=
    { format,
      extent := { width, height, depth := 1 },
      mip_levels := 1,
      array_layers := 1,
      samples,
      usage := 0,
      initial_layout := .ColorAttachmentOptimal }
  let (resources, img) := b.resources.create_image name desc
  match b.renderpasses[b.graphics_task.renderpass]? with
  | none => .error "renderpass index out of bounds"
  | some rp =>
    let (rp, attachment_index) := rp.add_attachment img
      { format, samples, load_op,
        store_op := .DontCare,
        stencil_load_op := load_op,
        stencil_store_op := .DontCare,
        initial_layout := .Undefined,
        final_layout := .Undefined }
    .ok
      ({ b with
          resources,
          renderpasses := b.renderpasses.set b.graphics_task.renderpass rp },
        { task := b.task,
          id := { renderpass := b.graphics_task.renderpass,
                  index := attachment_index, img },
          read := false, written := false,
          src_stage_mask := PIPELINE_STAGE_TOP_OF_PIPE_BIT,
          latency := 0 })

/-! ### Emitted dependency edges (as records, for the claim statements) -/

/-- The destination access mask of a barrier payload. -/
def barrierDstAccess : BarrierDetail → Nat
  | .Image b => b.dst_access_mask
  | .Subpass b => b.dst_access_mask

/-- The barrier is of the `Subpass` variant. -/
def BarrierDetail.isSubpassKind : BarrierDetail → Prop
  | .Subpass _ => True
  | .Image _ => False

/-- The edge `sample_image` emits (graphics.rs lines 64-79). -/
def sampleImageEdge (task : Nat) (img : ImageRef) : TGEdge :=
  { src := img.task, dst := task,
    dep :=
      { src_stage_mask := img.src_stage_mask,
        dst_stage_mask := PIPELINE_STAGE_VERTEX_SHADER_BIT,
        barrier := .Image
          { id := img.id, old_layout := .Undefined,
            new_layout := .ShaderReadOnlyOptimal, src_access_mask := 0,
            dst_access_mask := ACCESS_SHADER_READ_BIT },
        latency := img.latency } }

/-- The edge `set_depth_attachment` emits for a foreign-task reference
(graphics.rs lines 94-110). -/
def depthEdge (task : Nat) (a : AttachmentRef) : TGEdge :=
  { src := a.task, dst := task,
    dep :=
      { src_stage_mask := a.src_stage_mask,
        dst_stage_mask := PIPELINE_STAGE_EARLY_FRAGMENT_TESTS_BIT,
        barrier := .Subpass
          { id := a.id.img, old_layout := .Undefined, new_layout := .Undefined,
            src_access_mask := 0,
            dst_access_mask := ACCESS_DEPTH_STENCIL_ATTACHMENT_WRITE_BIT |||
              ACCESS_DEPTH_STENCIL_ATTACHMENT_READ_BIT },
        latency := a.latency } }

/-- The edge `set_input_attachments` emits for a foreign-task reference
(graphics.rs lines 140-155). -/
def inputEdge (task : Nat) (a : AttachmentRef) : TGEdge :=
  { src := a.task, dst := task,
    dep :=
      { src_stage_mask := a.src_stage_mask,
        dst_stage_mask := PIPELINE_STAGE_TOP_OF_PIPE_BIT,
        barrier := .Subpass
          { id := a.id.img, old_layout := .Undefined,
            new_layout := .ColorAttachmentOptimal, src_access_mask := 0,
            dst_access_mask := ACCESS_INPUT_ATTACHMENT_READ_BIT },
        latency := a.latency } }

/-- The edge `set_color_attachments` emits for a foreign-task reference
(graphics.rs lines 192-208). -/
def colorEdge (task : Nat) (a : AttachmentRef) : TGEdge :=
  { src := a.task, dst := task,
    dep :=
      { src_stage_mask := a.src_stage_mask,
        dst_stage_mask := PIPELINE_STAGE_COLOR_ATTACHMENT_OUTPUT_BIT,
        barrier := .Subpass
          { id := a.id.img, old_layout := .Undefined,
            new_layout := .ColorAttachmentOptimal, src_access_mask := 0,
            dst_access_mask := ACCESS_COLOR_ATTACHMENT_READ_BIT |||
              ACCESS_COLOR_ATTACHMENT_WRITE_BIT },
        latency := a.latency } }

theorem add_dependency_ok_edges {g g' : FrameGraph} {src dst : Nat}
    {dep : Dependency} (h : g.add_dependency src dst dep = .ok g') :
    g'.edges = g.edges ++ [TGEdge.mk src dst dep] ∧ src ≠ dst := by
  rw [FrameGraph.add_dependency] at h
  by_cases hself : src = dst
  · rw [if_pos hself] at h
    exact absurd h (by simp)
  · rw [if_neg hself] at h
    by_cases hcyc : reachesB g.edges dst src
    · rw [if_pos hcyc] at h
      exact absurd h (by simp)
    · rw [if_neg hcyc] at h
      simp only [Except.ok.injEq] at h
      subst h
      exact ⟨rfl, hself⟩

theorem set_read_ok {r r' : ImageRef} (h : r.set_read = .ok r') :
    r' = { r with read := true } ∧ r.written = false := by
  rw [ImageRef.set_read] at h
  by_cases hw : r.written
  · rw [if_pos hw] at h
    exact absurd h (by simp)
  · rw [if_neg hw] at h
    simp only [Except.ok.injEq] at h
    exact ⟨h.symm, Bool.eq_false_iff.mpr hw⟩

/-! ### Concrete fixtures for counterexamples and witnesses -/

/-- A concrete image creation description. -/
def imgInfoA : ImageCreateInfo :=
  { format := 37, extent := { width := 640, height := 480, depth := 1 },
    mip_levels := 1, array_layers := 1, samples := 1, usage := 0,
    initial_layout := .Undefined }

/-- A resource tracker holding one unfrozen image (id 0). -/
def resA : Resources :=
  { images := [{ name := "imgA", create_info := imgInfoA, usage := 0,
                 frozen := false }] }

/-- An empty render pass whose subpass list holds task 3. -/
def rpA : RenderPass := { tasks := [3], attachments := [], attachments_desc := [] }

/-- An empty graphics-task record on render pass 0. -/
def gtA : GraphicsTask :=
  { renderpass := 0, color_attachments := [], input_attachments := [],
    resolve_attachments := [], depth_attachment := none, shader_images := [] }

/-- A builder for task 3 over a four-task graph with no edges. -/
def builderA : GraphicsTaskBuilder :=
  { graph := { numTasks := 4, edges := [] }, resources := resA,
    renderpasses := [rpA], task := 3, graphics_task := gtA }

/-- An image reference owned by the builder's own task (task 3). -/
def imgRefSame : ImageRef :=
  { id := 0, task := 3,
    src_stage_mask := PIPELINE_STAGE_COLOR_ATTACHMENT_OUTPUT_BIT,
    read := false, written := false, latency := 0 }

/-- An image reference owned by a different task (task 1). -/
def imgRefOther : ImageRef :=
  { id := 0, task := 1,
    src_stage_mask := PIPELINE_STAGE_COLOR_ATTACHMENT_OUTPUT_BIT,
    read := false, written := false, latency := 0 }

/-- Expected builder state after `builderA.sample_image imgRefOther`. -/
def builderAOut : GraphicsTaskBuilder :=
  { graph := { numTasks := 4, edges := [sampleImageEdge 3 imgRefOther] },
    resources := { images := [{ name := "imgA", create_info := imgInfoA,
                                usage := 4, frozen := false }] },
    renderpasses := [rpA], task := 3,
    graphics_task := { gtA with shader_images := [0] } }

/-! ### Claim theorems for `sample_image` (C2) -/

theorem sample_image_ok_spec {b : GraphicsTaskBuilder} {img : ImageRef}
    {b' : GraphicsTaskBuilder} {img' : ImageRef}
    (h : b.sample_image img = .ok (b', img')) :
    img.task ≠ b.task ∧
      b'.graph.edges = b.graph.edges ++ [sampleImageEdge b.task img] := by
  rw [GraphicsTaskBuilder.sample_image] at h
  split at h
  · exact absurd h (by simp)
  · rename_i j hsr
    split at h
    · exact absurd h (by simp)
    · rename_i resources hu
      split at h
      · exact absurd h (by simp)
      · rename_i graph hg
        obtain ⟨hj, hwr⟩ := set_read_ok hsr
        subst hj
        have hedges := add_dependency_ok_edges hg
        simp only [Except.ok.injEq, Prod.mk.injEq] at h
        obtain ⟨hb', himg'⟩ := h
        subst hb'
        exact ⟨hedges.2, hedges.1⟩

/-- Counterexample to claim C2 as stated: when the sampled reference is
owned by the current task itself, `sample_image` does NOT quietly emit
no dependency — unlike the attachment setters it has no same-task
guard (graphics.rs line 64 calls `add_dependency` unconditionally), so
it invokes `add_dependency(src, src)`, which by the Task Graph contract
fails loudly as a self-dependency. -/
theorem sample_image_same_task_cex :
    builderA.sample_image imgRefSame =
      .error "add_dependency: self-dependency" := by
  rfl

/-- Claim C2 as amended: when the reference's owning task and the
current task differ, a successful `sample_image` emits exactly one edge
from the owner to the current task whose destination stage mask
includes the (vertex) shader stage used and whose destination access
mask includes shader-read; when owner and current task coincide,
`sample_image` never succeeds — it reaches `add_dependency` with
`src = dst` (no same-task guard) and fails loudly with a
self-dependency error, emitting no edge. -/
theorem sample_image_dependency :
    (∀ (b : GraphicsTaskBuilder) (img : ImageRef) (b' : GraphicsTaskBuilder)
        (img' : ImageRef),
      b.sample_image img = .ok (b', img') →
      img.task ≠ b.task ∧
        b'.graph.edges = b.graph.edges ++ [sampleImageEdge b.task img] ∧
        maskIncludes (sampleImageEdge b.task img).dep.dst_stage_mask
          PIPELINE_STAGE_VERTEX_SHADER_BIT ∧
        maskIncludes (barrierDstAccess (sampleImageEdge b.task img).dep.barrier)
          ACCESS_SHADER_READ_BIT) ∧
    (∀ (b : GraphicsTaskBuilder) (img : ImageRef),
      img.task = b.task → img.written = false →
      (∃ res, b.resources.add_or_check_image_usage img.id
        IMAGE_USAGE_SAMPLED_BIT = .ok res) →
      b.sample_image img = .error "add_dependency: self-dependency") := by
  constructor
  · intro b img b' img' h
    have hspec := sample_image_ok_spec h
    refine ⟨hspec.1, hspec.2, ?_, ?_⟩
    · show maskIncludes PIPELINE_STAGE_VERTEX_SHADER_BIT
        PIPELINE_STAGE_VERTEX_SHADER_BIT
      decide
    · show maskIncludes ACCESS_SHADER_READ_BIT ACCESS_SHADER_READ_BIT
      decide
  · intro b img htask hwr hex
    obtain ⟨res, hres⟩ := hex
    cases hcall : b.sample_image img with
    | ok p =>
      obtain ⟨b', img'⟩ := p
      exact absurd htask (sample_image_ok_spec hcall).1
    | error e =>
      rw [GraphicsTaskBuilder.sample_image] at hcall
      split at hcall
      · rename_i e0 hsr
        rw [ImageRef.set_read, if_neg (by simp [hwr])] at hsr
        exact absurd hsr (by simp)
      · rename_i j hsr
        obtain ⟨hj, -⟩ := set_read_ok hsr
        subst hj
        split at hcall
        · rename_i e0 hu
          have hu' : b.resources.add_or_check_image_usage img.id
              IMAGE_USAGE_SAMPLED_BIT = .error e0 := hu
          rw [hres] at hu'
          exact absurd hu' (by simp)
        · rename_i resources hu
          split at hcall
          · rename_i e0 hg
            have hg' : b.graph.add_dependency img.task b.task
                { src_stage_mask := img.src_stage_mask,
                  dst_stage_mask := PIPELINE_STAGE_VERTEX_SHADER_BIT,
                  barrier := .Image
                    { id := img.id, old_layout := .Undefined,
                      new_layout := .ShaderReadOnlyOptimal,
                      src_access_mask := 0,
                      dst_access_mask := ACCESS_SHADER_READ_BIT },
                  latency := img.latency } = .error e0 := hg
            rw [FrameGraph.add_dependency, if_pos htask] at hg'
            simp only [Except.error.injEq] at hg'
            simp only [Except.error.injEq] at hcall
            rw [← hcall, ← hg']
          · exact absurd hcall (by simp)

/-- Witness for the amended C2: a cross-task sample emits the edge; a
same-task sample fails with the self-dependency error. -/
theorem sample_image_dependency_witness :
    (imgRefOther.task ≠ builderA.task ∧
      builderAOut.graph.edges = builderA.graph.edges ++
        [sampleImageEdge builderA.task imgRefOther] ∧
      maskIncludes (sampleImageEdge builderA.task imgRefOther).dep.dst_stage_mask
        PIPELINE_STAGE_VERTEX_SHADER_BIT ∧
      maskIncludes
        (barrierDstAccess (sampleImageEdge builderA.task imgRefOther).dep.barrier)
        ACCESS_SHADER_READ_BIT) ∧
    builderA.sample_image imgRefSame =
      .error "add_dependency: self-dependency" :=
  ⟨sample_image_dependency.1 builderA imgRefOther builderAOut
      { imgRefOther with read := true } rfl,
    sample_image_dependency.2 builderA imgRefSame rfl rfl ⟨_, rfl⟩⟩

/-! ### Claim theorem for `store_attachment` (C6) -/

/-- A concrete attachment description with both store ops `DontCare`. -/
def descB : AttachmentDescription :=
  { format := 37, samples := 1, load_op := .Clear, store_op := .DontCare,
    stencil_load_op := .Clear, stencil_store_op := .DontCare,
    initial_layout := .Undefined, final_layout := .Undefined }

/-- A render pass holding one attachment (image 0) described by `descB`. -/
def rpB : RenderPass :=
  { tasks := [0], attachments := [0], attachments_desc := [descB] }

/-- A builder for task 0 whose render pass 0 is `rpB`. -/
def builderB : GraphicsTaskBuilder :=
  { graph := { numTasks := 1, edges := [] }, resources := resA,
    renderpasses := [rpB], task := 0, graphics_task := gtA }

/-- The attachment reference for `rpB`'s attachment 0. -/
def arefB : AttachmentRef :=
  { task := 0, id := { renderpass := 0, index := 0, img := 0 },
    read := false, written := false,
    src_stage_mask := PIPELINE_STAGE_COLOR_ATTACHMENT_OUTPUT_BIT, latency := 0 }

/-- Claim C6 fails on the code (code bug): `store_attachment(ref, op)`
is specified to set the STORE op of the attachment description at the
reference's index, but graphics.rs lines 263-265 assign the given op to
the `stencil_store_op` field, leaving `store_op` at `DontCare` forever.
Evaluated at a concrete input: storing with `Store` leaves `store_op =
DontCare` and sets `stencil_store_op = Store`. The returned `ImageRef`
is, as claimed, owned by the current task with source stage
`COLOR_ATTACHMENT_OUTPUT`. -/
theorem store_attachment_sets_stencil_not_store :
    builderB.store_attachment arefB .Store =
      .ok
        ({ builderB with
            renderpasses :=
              [{ rpB with
                  attachments_desc :=
                    [{ descB with stencil_store_op := .Store }] }] },
          { id := 0, task := 0,
            src_stage_mask := PIPELINE_STAGE_COLOR_ATTACHMENT_OUTPUT_BIT,
            read := false, written := false, latency := 0 }) ∧
    ({ descB with stencil_store_op := AttachmentStoreOp.Store }).store_op =
      .DontCare ∧
    ({ descB with stencil_store_op := AttachmentStoreOp.Store }).stencil_store_op =
      .Store :=
  ⟨rfl, rfl, rfl⟩

/-! ### Claim theorems for the attachment setters (C7) -/

theorem colorLoop_edges (task : Nat) :
    ∀ (refs : List AttachmentRef) (g : FrameGraph) (r : Resources)
      (g' : FrameGraph) (r' : Resources),
      colorLoop task refs g r = .ok (g', r') →
      g'.edges = g.edges ++
        ((refs.filter fun c => c.task != task).map (colorEdge task)) := by
  intro refs
  induction refs with
  | nil =>
    intro g r g' r' h
    rw [colorLoop] at h
    simp only [Except.ok.injEq, Prod.mk.injEq] at h
    rw [← h.1]
    simp
  | cons c rest ih =>
    intro g r g' r' h
    rw [colorLoop] at h
    split at h
    · exact absurd h (by simp)
    · rename_i graph heq
      split at h
      · exact absurd h (by simp)
      · rename_i resources hu
        have hrec := ih graph resources g' r' h
        by_cases ht : c.task = task
        · rw [if_neg (not_not_intro ht)] at heq
          simp only [Except.ok.injEq] at heq
          have hf : (c.task != task) = false := by simp [ht]
          rw [hrec, ← heq, List.filter_cons, hf]
          simp
        · rw [if_pos ht] at heq
          have hedges := (add_dependency_ok_edges heq).1
          have hf : (c.task != task) = true := by simpa using ht
          rw [hrec, hedges, List.filter_cons, hf]
          simp [colorEdge, List.append_assoc]

theorem inputLoop_edges (task : Nat) :
    ∀ (refs : List AttachmentRef) (g : FrameGraph) (r : Resources)
      (g' : FrameGraph) (r' : Resources),
      inputLoop task refs g r = .ok (g', r') →
      g'.edges = g.edges ++
        ((refs.filter fun i => i.task != task).map (inputEdge task)) := by
  intro refs
  induction refs with
  | nil =>
    intro g r g' r' h
    rw [inputLoop] at h
    simp only [Except.ok.injEq, Prod.mk.injEq] at h
    rw [← h.1]
    simp
  | cons i rest ih =>
    intro g r g' r' h
    rw [inputLoop] at h
    split at h
    · exact absurd h (by simp)
    · rename_i graph heq
      split at h
      · exact absurd h (by simp)
      · rename_i resources hu
        have hrec := ih graph resources g' r' h
        by_cases ht : i.task = task
        · rw [if_neg (not_not_intro ht)] at heq
          simp only [Except.ok.injEq] at heq
          have hf : (i.task != task) = false := by simp [ht]
          rw [hrec, ← heq, List.filter_cons, hf]
          simp
        · rw [if_pos ht] at heq
          have hedges := (add_dependency_ok_edges heq).1
          have hf : (i.task != task) = true := by simpa using ht
          rw [hrec, hedges, List.filter_cons, hf]
          simp [inputEdge, List.append_assoc]

theorem set_depth_attachment_edges {b : GraphicsTaskBuilder}
    {d : AttachmentRef} {b' : GraphicsTaskBuilder}
    (h : b.set_depth_attachment d = .ok b') :
    b'.graph.edges = b.graph.edges ++
      (if d.task = b.task then [] else [depthEdge b.task d]) := by
  rw [GraphicsTaskBuilder.set_depth_attachment] at h
  split at h
  · exact absurd h (by simp)
  · rename_i graph heq
    split at h
    · exact absurd h (by simp)
    · rename_i resources hu
      simp only [Except.ok.injEq] at h
      subst h
      by_cases ht : d.task = b.task
      · rw [if_neg (not_not_intro ht)] at heq
        simp only [Except.ok.injEq] at heq
        rw [if_pos ht, ← heq]
        simp
      · rw [if_pos ht] at heq
        have hedges := (add_dependency_ok_edges heq).1
        rw [if_neg ht]
        exact hedges

theorem set_color_attachments_edges {b : GraphicsTaskBuilder}
    {refs : List AttachmentRef} {b' : GraphicsTaskBuilder}
    (h : b.set_color_attachments refs = .ok b') :
    b'.graph.edges = b.graph.edges ++
      ((refs.filter fun c => c.task != b.task).map (colorEdge b.task)) := by
  rw [GraphicsTaskBuilder.set_color_attachments] at h
  split at h
  · exact absurd h (by simp)
  · rename_i graph resources hloop
    simp only [Except.ok.injEq] at h
    subst h
    exact colorLoop_edges b.task refs b.graph b.resources graph resources hloop

theorem set_input_attachments_edges {b : GraphicsTaskBuilder}
    {refs : List AttachmentRef} {b' : GraphicsTaskBuilder}
    (h : b.set_input_attachments refs = .ok b') :
    b'.graph.edges = b.graph.edges ++
      ((refs.filter fun i => i.task != b.task).map (inputEdge b.task)) := by
  rw [GraphicsTaskBuilder.set_input_attachments] at h
  split at h
  · exact absurd h (by simp)
  · rename_i graph resources hloop
    simp only [Except.ok.injEq] at h
    subst h
    exact inputLoop_edges b.task refs b.graph b.resources graph resources hloop

/-- Claim C7: for each attachment setter, a reference owned by the
current task adds no edge; a reference owned by another task adds
exactly one `Subpass`-kind dependency from the owner to the current
task, with destination access depth read+write, color read+write, or
input-attachment-read respectively. -/
theorem set_attachments_dependencies :
    (∀ (b : GraphicsTaskBuilder) (d : AttachmentRef) (b' : GraphicsTaskBuilder),
      b.set_depth_attachment d = .ok b' →
      b'.graph.edges = b.graph.edges ++
        (if d.task = b.task then [] else [depthEdge b.task d])) ∧
    (∀ (b : GraphicsTaskBuilder) (refs : List AttachmentRef)
        (b' : GraphicsTaskBuilder),
      b.set_color_attachments refs = .ok b' →
      b'.graph.edges = b.graph.edges ++
        ((refs.filter fun c => c.task != b.task).map (colorEdge b.task))) ∧
    (∀ (b : GraphicsTaskBuilder) (refs : List AttachmentRef)
        (b' : GraphicsTaskBuilder),
      b.set_input_attachments refs = .ok b' →
      b'.graph.edges = b.graph.edges ++
        ((refs.filter fun i => i.task != b.task).map (inputEdge b.task))) ∧
    (∀ (t : Nat) (a : AttachmentRef),
      ((depthEdge t a).dep.barrier.isSubpassKind ∧
        (depthEdge t a).src = a.task ∧ (depthEdge t a).dst = t ∧
        barrierDstAccess (depthEdge t a).dep.barrier =
          ACCESS_DEPTH_STENCIL_ATTACHMENT_WRITE_BIT |||
            ACCESS_DEPTH_STENCIL_ATTACHMENT_READ_BIT) ∧
      ((colorEdge t a).dep.barrier.isSubpassKind ∧
        (colorEdge t a).src = a.task ∧ (colorEdge t a).dst = t ∧
        barrierDstAccess (colorEdge t a).dep.barrier =
          ACCESS_COLOR_ATTACHMENT_READ_BIT ||| ACCESS_COLOR_ATTACHMENT_WRITE_BIT) ∧
      ((inputEdge t a).dep.barrier.isSubpassKind ∧
        (inputEdge t a).src = a.task ∧ (inputEdge t a).dst = t ∧
        barrierDstAccess (inputEdge t a).dep.barrier =
          ACCESS_INPUT_ATTACHMENT_READ_BIT)) :=
  ⟨fun _ _ _ h => set_depth_attachment_edges h,
    fun _ _ _ h => set_color_attachments_edges h,
    fun _ _ _ h => set_input_attachments_edges h,
    fun t a =>
      ⟨⟨trivial, rfl, rfl,
          Eq.trans
            (rfl : barrierDstAccess (depthEdge t a).dep.barrier = 1536)
            (rfl : (1536 : Nat) =
              ACCESS_DEPTH_STENCIL_ATTACHMENT_WRITE_BIT |||
                ACCESS_DEPTH_STENCIL_ATTACHMENT_READ_BIT)⟩,
        ⟨trivial, rfl, rfl,
          Eq.trans
            (rfl : barrierDstAccess (colorEdge t a).dep.barrier = 384)
            (rfl : (384 : Nat) =
              ACCESS_COLOR_ATTACHMENT_READ_BIT |||
                ACCESS_COLOR_ATTACHMENT_WRITE_BIT)⟩,
        ⟨trivial, rfl, rfl, rfl⟩⟩⟩

/-- A depth attachment reference owned by the builder's own task. -/
def dSame : AttachmentRef :=
  { task := 3, id := { renderpass := 0, index := 0, img := 0 },
    read := false, written := false,
    src_stage_mask := PIPELINE_STAGE_COLOR_ATTACHMENT_OUTPUT_BIT, latency := 0 }

/-- A color/input attachment reference owned by a different task. -/
def aOther : AttachmentRef :=
  { task := 1, id := { renderpass := 0, index := 0, img := 0 },
    read := false, written := false,
    src_stage_mask := PIPELINE_STAGE_COLOR_ATTACHMENT_OUTPUT_BIT, latency := 0 }

/-- `resA` with the single image's usage flags set to `u`. -/
def resAUsage (u : Nat) : Resources :=
  { images := [{ name := "imgA", create_info := imgInfoA, usage := u,
                 frozen := false }] }

/-- Expected state after `builderA.set_depth_attachment dSame`. -/
def bDepthOut : GraphicsTaskBuilder :=
  { graph := { numTasks := 4, edges := [] }, resources := resAUsage 32,
    renderpasses := [rpA], task := 3,
    graphics_task :=
      { gtA with
          depth_attachment := some
            { attachment := 0, layout := .DepthStencilAttachmentOptimal } } }

/-- Expected state after `builderA.set_color_attachments [aOther]`. -/
def bColorOut : GraphicsTaskBuilder :=
  { graph := { numTasks := 4, edges := [colorEdge 3 aOther] },
    resources := resAUsage 16, renderpasses := [rpA], task := 3,
    graphics_task :=
      { gtA with
          color_attachments :=
            [{ attachment := 0, layout := .ColorAttachmentOptimal }] } }

/-- Expected state after `builderA.set_input_attachments [dSame, aOther]`. -/
def bInputOut : GraphicsTaskBuilder :=
  { graph := { numTasks := 4, edges := [inputEdge 3 aOther] },
    resources := resAUsage 128, renderpasses := [rpA], task := 3,
    graphics_task :=
      { gtA with
          input_attachments :=
            [{ attachment := 0, layout := .ColorAttachmentOptimal },
              { attachment := 0, layout := .ColorAttachmentOptimal }] } }

/-- Witness for C7: a same-task depth attachment adds no edge; a
foreign-task color attachment and a mixed input list each add exactly
the class-specific edges. -/
theorem set_attachments_dependencies_witness :
    (bDepthOut.graph.edges = builderA.graph.edges ++
      (if dSame.task = builderA.task then []
        else [depthEdge builderA.task dSame])) ∧
    (bColorOut.graph.edges = builderA.graph.edges ++
      (([aOther].filter fun c => c.task != builderA.task).map
        (colorEdge builderA.task))) ∧
    (bInputOut.graph.edges = builderA.graph.edges ++
      (([dSame, aOther].filter fun i => i.task != builderA.task).map
        (inputEdge builderA.task))) ∧
    (depthEdge builderA.task dSame).dep.barrier.isSubpassKind :=
  ⟨set_attachments_dependencies.1 builderA dSame bDepthOut rfl,
    set_attachments_dependencies.2.1 builderA [aOther] bColorOut rfl,
    set_attachments_dependencies.2.2.1 builderA [dSame, aOther] bInputOut rfl,
    (set_attachments_dependencies.2.2.2 builderA.task dSame).1.1⟩

/-! ### Claim theorem for `load_attachment` (C9) -/

/-- Claim C9: `load_attachment(imgRef, loadOp)` appends a new attachment
to the builder's render pass whose description has load op `loadOp`,
store op `DontCare`, and stencil load op mirroring `loadOp`; the
returned `AttachmentRef` carries the fresh attachment index (the
previous attachment count); and no dependency edge is added (graph and
resources are untouched). -/
theorem load_attachment_appends (b : GraphicsTaskBuilder) (img : ImageRef)
    (load_op : AttachmentLoadOp) (b' : GraphicsTaskBuilder)
    (aref : AttachmentRef)
    (h : b.load_attachment img load_op = .ok (b', aref)) :
    ∃ rp info,
      b.renderpasses[b.graphics_task.renderpass]? = some rp ∧
      b.resources.get_image_create_info img.id = .ok info ∧
      b'.renderpasses = b.renderpasses.set b.graphics_task.renderpass
        { rp with
            attachments := rp.attachments ++ [img.id],
            attachments_desc := rp.attachments_desc ++
              [{ format := info.format, samples := info.samples,
                 load_op := load_op, store_op := .DontCare,
                 stencil_load_op := load_op, stencil_store_op := .DontCare,
                 initial_layout := .Undefined, final_layout := .Undefined }] } ∧
      aref =
        { task := img.task,
          id := { renderpass := b.graphics_task.renderpass,
                  index := rp.attachments_desc.length, img := img.id },
          read := false, written := false,
          src_stage_mask := PIPELINE_STAGE_TOP_OF_PIPE_BIT, latency := 0 } ∧
      b'.graph = b.graph ∧ b'.resources = b.resources := by
  rw [GraphicsTaskBuilder.load_attachment] at h
  split at h
  · exact absurd h (by simp)
  · rename_i info hinfo
    split at h
    · exact absurd h (by simp)
    · rename_i rp hrp
      simp only [RenderPass.add_attachment] at h
      simp only [Except.ok.injEq, Prod.mk.injEq] at h
      obtain ⟨hb', haref⟩ := h
      subst hb'
      exact ⟨rp, info, hrp, hinfo, rfl, haref.symm, rfl, rfl⟩

/-- The attachment description `load_attachment` derives for image 0 of
`resA` with `Clear`. -/
def descLoaded : AttachmentDescription :=
  { format := 37, samples := 1, load_op := .Clear, store_op := .DontCare,
    stencil_load_op := .Clear, stencil_store_op := .DontCare,
    initial_layout := .Undefined, final_layout := .Undefined }

/-- Expected state after `builderA.load_attachment imgRefOther .Clear`. -/
def bLoadOut : GraphicsTaskBuilder :=
  { builderA with
      renderpasses :=
        [{ rpA with attachments := [0], attachments_desc := [descLoaded] }] }

/-- The attachment reference `load_attachment` returns for that call. -/
def arefLoad : AttachmentRef :=
  { task := 1, id := { renderpass := 0, index := 0, img := 0 },
    read := false, written := false,
    src_stage_mask := PIPELINE_STAGE_TOP_OF_PIPE_BIT, latency := 0 }

/-- Witness for C9 at a concrete builder and image reference. -/
theorem load_attachment_appends_witness :
    ∃ rp info,
      builderA.renderpasses[builderA.graphics_task.renderpass]? = some rp ∧
      builderA.resources.get_image_create_info imgRefOther.id = .ok info ∧
      bLoadOut.renderpasses =
        builderA.renderpasses.set builderA.graphics_task.renderpass
          { rp with
              attachments := rp.attachments ++ [imgRefOther.id],
              attachments_desc := rp.attachments_desc ++
                [{ format := info.format, samples := info.samples,
                   load_op := .Clear, store_op := .DontCare,
                   stencil_load_op := .Clear, stencil_store_op := .DontCare,
                   initial_layout := .Undefined, final_layout := .Undefined }] } ∧
      arefLoad =
        { task := imgRefOther.task,
          id := { renderpass := builderA.graphics_task.renderpass,
                  index := rp.attachments_desc.length, img := imgRefOther.id },
          read := false, written := false,
          src_stage_mask := PIPELINE_STAGE_TOP_OF_PIPE_BIT, latency := 0 } ∧
      bLoadOut.graph = builderA.graph ∧
      bLoadOut.resources = builderA.resources :=
  load_attachment_appends builderA imgRefOther .Clear bLoadOut arefLoad rfl
